import Mathlib

/-!
Verification development for the minecraft-bedrock-sub-counter repository.

Shallow embedding of:

* the render planner (`MinecraftRenderer.renderSubscriberCount` and
  `MinecraftRenderer.updateSubscriberCount`), as pure functions from counts
  to lists of world-mutation operations;
* the subscriber-count formatter (`YouTubeService.formatSubscriberCount`);
* the chat-command dispatcher (`CommandHandler.executeCommand`), as a pure
  function from dispatcher state, command name, arguments and an oracle for
  external results to a new state and a list of observable effects;
* the rate-limited command channel (`CommandSystem`), modelled as a timed
  transition system whose atomic steps are the synchronous segments of the
  JavaScript code between `await` suspension points.
-/

namespace SubCounter

/-! ### Static configuration (`src/config.js`) -/

/-- `config.commandDelay` — minimum milliseconds between wire sends. -/
def commandDelay : Nat := 50

/-- `config.coordinates.subscriberDisplay.start.x`. -/
def startX : Int := 1

/-- `config.coordinates.subscriberDisplay.start.y`. -/
def startY : Int := -60

/-- `config.coordinates.subscriberDisplay.start.z`. -/
def startZ : Int := 42

/-- `config.coordinates.subscriberDisplay.digitSpacing`. -/
def digitSpacing : Int := 4

/-- `config.coordinates.digitTemplates` — clone-source regions per digit. -/
def digitTemplates (c : Char) : Option (String × String) :=
  match c with
  | '0' => some ("-34 -64 46", "-36 -64 42")
  | '1' => some ("2 -64 46", "0 -64 42")
  | '2' => some ("-2 -64 46", "-4 -64 42")
  | '3' => some ("-6 -64 46", "-8 -64 42")
  | '4' => some ("-10 -64 46", "-12 -64 42")
  | '5' => some ("-14 -64 46", "-16 -64 42")
  | '6' => some ("-18 -64 46", "-20 -64 42")
  | '7' => some ("-22 -64 46", "-24 -64 42")
  | '8' => some ("-26 -64 46", "-28 -64 42")
  | '9' => some ("-30 -64 46", "-32 -64 42")
  | _ => none

/-- Coordinate triple rendered the way the JavaScript template literals do. -/
def coordStr (x y z : Int) : String :=
  toString x ++ " " ++ toString y ++ " " ++ toString z

/-! ### Render plan operations

The renderer pushes command strings `fill <from> <to> air` and
`clone <from> <to> <dest>` onto a `commands` array; we keep them as a
structured operation type carrying exactly the same coordinate payloads. -/

/-- A world-mutation operation emitted by the renderer. -/
inductive Op where
  /-- `fill <src> <dst> air` -/
  | fill (cFrom cTo : String) : Op
  /-- `clone <cFrom> <cTo> <dest>` -/
  | clone (cFrom cTo dest : String) : Op
  deriving Repr, DecidableEq

/-! ### Full render plan (`MinecraftRenderer.renderSubscriberCount`)

```js
const digits = subscriberCount.toString().split('');
for (let i = 0; i < digits.length && i < 10; i++) {
  const digit = digits[i];
  const template = config.coordinates.digitTemplates[digit];
  if (!template) { Logger.warn(...); continue; }
  const destX = start.x - (i * digitSpacing);
  commands.push(`clone ${template.from} ${template.to} ${destX} ${destY} ${destZ}`);
}
```
-/

/-- Loop body of `renderSubscriberCount`: position index `i` runs over the
digit list, capped at 10; a digit with no template is skipped. -/
def renderLoop : List Char → Nat → List Op
  | [], _ => []
  | d :: rest, i =>
    if i < 10 then
      match digitTemplates d with
      | none => renderLoop rest (i + 1)
      | some (f, t) =>
        Op.clone f t (coordStr (startX - (i : Int) * digitSpacing) startY startZ)
          :: renderLoop rest (i + 1)
    else []

/-- The list of clone commands built by `renderSubscriberCount`. -/
def renderSubscriberCountPlan (subscriberCount : String) : List Op :=
  renderLoop subscriberCount.toList 0

/-- Spec-side definition of the full render plan, following the spec:
for each digit position `i` (0-indexed from most significant, capped at 10
digits), look up the digit's source template region, compute the destination
as the start position offset by `-i * digitSpacing` along x, one clone op per
digit, skipping positions whose digit has no template. -/
def fullCountPlanSpec (s : String) : List Op :=
  (s.toList.take 10).enum.filterMap fun p =>
    (digitTemplates p.2).map fun t =>
      Op.clone t.1 t.2 (coordStr (startX - (p.1 : Int) * digitSpacing) startY startZ)

/-! ### Diff render plan (`MinecraftRenderer.updateSubscriberCount`)

```js
const newDigits = newCount.toString().split('');
const oldDigits = oldCount.toString().split('');
const maxLength = Math.max(newDigits.length, oldDigits.length);
while (newDigits.length < maxLength) newDigits.unshift(' ');
while (oldDigits.length < maxLength) oldDigits.unshift(' ');
for (let i = 0; i < maxLength; i++) {
  if (newDigits[i] !== oldDigits[i]) {
    const destX = start.x - (i * digitSpacing);
    if (newDigits[i] === ' ') {
      commands.push(`fill ${destX+2} ${destY} ${destZ-2} ${destX-2} ${destY+4} ${destZ+2} air`);
    } else {
      commands.push(`fill ${destX+2} ${destY} ${destZ-2} ${destX-2} ${destY+4} ${destZ+2} air`);
      const template = config.coordinates.digitTemplates[newDigits[i]];
      if (template) commands.push(`clone ${template.from} ${template.to} ${destX} ${destY} ${destZ}`);
    }
  }
}
```
-/

/-- The `unshift(' ')` padding loop: left-pad with blanks to length `n`. -/
def leftPad (l : List Char) (n : Nat) : List Char :=
  List.replicate (n - l.length) ' ' ++ l

/-- The fill-to-air operation over the footprint of digit position `i`. -/
def fillAt (i : Nat) : Op :=
  let destX := startX - (i : Int) * digitSpacing
  Op.fill (coordStr (destX + 2) startY (startZ - 2))
    (coordStr (destX - 2) (startY + 4) (startZ + 2))

/-- Loop body of `updateSubscriberCount`: walk both padded digit lists in
parallel with position index `i`; emit fill (and clone for a non-blank new
digit that has a template) only where the digits differ. -/
def diffLoop : List Char → List Char → Nat → List Op
  | n :: ns, o :: os, i =>
    (if n ≠ o then
      if n = ' ' then [fillAt i]
      else
        match digitTemplates n with
        | some (f, t) =>
          [fillAt i,
            Op.clone f t (coordStr (startX - (i : Int) * digitSpacing) startY startZ)]
        | none => [fillAt i]
     else []) ++ diffLoop ns os (i + 1)
  | _, _, _ => []

/-- The list of commands built by `updateSubscriberCount` when an old count
is available (the diffed incremental render). -/
def updateSubscriberCountPlan (newCount oldCount : String) : List Op :=
  let newDigits := newCount.toList
  let oldDigits := oldCount.toList
  let maxLength := max newDigits.length oldDigits.length
  diffLoop (leftPad newDigits maxLength) (leftPad oldDigits maxLength) 0

/-- Per-position operations of the spec-side diff plan: nothing where the
padded digits agree; where they differ, a fill-to-air over that position's
footprint followed by a clone placing the new digit unless the new digit is
the blank placeholder (a digit without a template contributes no clone). -/
def diffOpsAt (p : Nat × Char × Char) : List Op :=
  if p.2.1 = p.2.2 then []
  else
    fillAt p.1 ::
      (if p.2.1 = ' ' then []
       else (digitTemplates p.2.1).toList.map fun t =>
         Op.clone t.1 t.2 (coordStr (startX - (p.1 : Int) * digitSpacing) startY startZ))

/-- Spec-side definition of the diff plan, following the spec: left-pad both
digit sequences with a blank placeholder to equal length and emit operations
only at positions where the padded digits differ. -/
def diffCountPlanSpec (newCount oldCount : String) : List Op :=
  let maxLength := max newCount.toList.length oldCount.toList.length
  let nP := leftPad newCount.toList maxLength
  let oP := leftPad oldCount.toList maxLength
  ((nP.zip oP).enum).flatMap diffOpsAt

/-! ### Theorems for the render planner -/

theorem diffLoop_self (l : List Char) : ∀ i, diffLoop l l i = [] := by
  induction l with
  | nil => intro i; rfl
  | cons c rest ih => intro i; simp [diffLoop, ih]

/-- C5: the diffed render plan computed from new count X and old count X is
the empty operation list: no fill and no clone command is emitted when the
new and old subscriber counts are equal. -/
theorem diffPlan_self_empty (X : String) :
    updateSubscriberCountPlan X X = [] := by
  unfold updateSubscriberCountPlan
  exact diffLoop_self _ 0

theorem diffLoop_eq_spec (nl : List Char) :
    ∀ (ol : List Char) (i : Nat),
      diffLoop nl ol i = ((nl.zip ol).enumFrom i).flatMap diffOpsAt := by
  induction nl with
  | nil => intro ol i; cases ol <;> rfl
  | cons n ns ih =>
    intro ol i
    cases ol with
    | nil => rfl
    | cons o os =>
      show (if n ≠ o then _ else []) ++ diffLoop ns os (i + 1) = _
      rw [ih os (i + 1)]
      by_cases h : n = o
      · subst h
        simp [diffOpsAt, List.enumFrom, List.flatMap_cons]
        rfl
      · by_cases hb : n = ' '
        · subst hb
          simp [h, diffOpsAt, List.enumFrom, List.flatMap_cons]
          rfl
        · cases htm : digitTemplates n with
          | none =>
            simp [h, hb, htm, diffOpsAt, List.enumFrom, List.flatMap_cons]
            rfl
          | some t =>
            cases t with
            | mk f tt =>
              simp [h, hb, htm, diffOpsAt, List.enumFrom, List.flatMap_cons]
              rfl

/-- C6: the diffed render plan left-pads both digit sequences with a blank
placeholder to equal length and emits operations only at positions where the
padded digits differ: each such position gets a fill-to-air over that
position's footprint followed by a clone placing the new digit unless the
new digit is the blank placeholder; agreeing positions contribute nothing.
In particular the plan for new count 123 against old count 99 touches
exactly the three positions whose padded digits differ. -/
theorem diffPlan_eq_spec :
    (∀ newCount oldCount : String,
      updateSubscriberCountPlan newCount oldCount =
        diffCountPlanSpec newCount oldCount) ∧
    updateSubscriberCountPlan "123" "99" =
      [fillAt 0, Op.clone "2 -64 46" "0 -64 42" "1 -60 42",
       fillAt 1, Op.clone "-2 -64 46" "-4 -64 42" "-3 -60 42",
       fillAt 2, Op.clone "-6 -64 46" "-8 -64 42" "-7 -60 42"] := by
  constructor
  · intro newCount oldCount
    unfold updateSubscriberCountPlan diffCountPlanSpec
    rw [diffLoop_eq_spec]
    rfl
  · decide

theorem renderLoop_eq_spec (ds : List Char) :
    ∀ i, renderLoop ds i =
      ((ds.take (10 - i)).enumFrom i).filterMap fun p =>
        (digitTemplates p.2).map fun t =>
          Op.clone t.1 t.2 (coordStr (startX - (p.1 : Int) * digitSpacing) startY startZ) := by
  induction ds with
  | nil => intro i; simp [renderLoop]
  | cons d rest ih =>
    intro i
    by_cases h : i < 10
    · have htake : (10 - i) = (10 - (i + 1)) + 1 := by omega
      rw [htake]
      show renderLoop (d :: rest) i = _
      unfold renderLoop
      rw [if_pos h]
      cases htm : digitTemplates d with
      | none =>
        simp only [List.take_succ_cons, List.enumFrom, List.filterMap_cons, htm,
          Option.map_none']
        exact ih (i + 1)
      | some t =>
        cases t with
        | mk f tt =>
          simp only [List.take_succ_cons, List.enumFrom, List.filterMap_cons, htm,
            Option.map_some']
          rw [ih (i + 1)]
    · have hz : 10 - i = 0 := by omega
      rw [hz]
      show renderLoop (d :: rest) i = _
      unfold renderLoop
      rw [if_neg h]
      simp

/-- C7: the full render plan emits one clone operation per digit position i
(0-indexed from the most significant digit, capped at 10 digits), sourced
from that digit's template region and destined at the configured start
coordinate offset by `-i * digitSpacing` along the x axis, skipping (not
failing on) positions whose digit has no template; in particular for count 7
the plan is exactly one clone sourced from the '7' template destined at the
start coordinate with no offset. -/
theorem renderPlan_eq_spec :
    (∀ s : String, renderSubscriberCountPlan s = fullCountPlanSpec s) ∧
    renderSubscriberCountPlan "7" =
      [Op.clone "-22 -64 46" "-24 -64 42" "1 -60 42"] := by
  constructor
  · intro s
    unfold renderSubscriberCountPlan fullCountPlanSpec
    rw [renderLoop_eq_spec]
    rfl
  · decide

/-! ### Subscriber-count formatter (`YouTubeService.formatSubscriberCount`)

```js
const num = parseInt(count);
if (num >= 1000000000) return (num / 1000000000).toFixed(1) + 'B';
else if (num >= 1000000) return (num / 1000000).toFixed(1) + 'M';
else if (num >= 1000) return (num / 1000).toFixed(1) + 'K';
return count;
```
-/

/-- `parseInt` on the strings the formatter receives (decimal numerals from
the remote API): the value of the leading run of decimal digits, `none` when
there is none.  JavaScript then yields `NaN` and every threshold comparison
is false, so the source falls through and returns the input unchanged, which
is what the `none` branch of `formatSubscriberCount` does. -/
def parseIntStr (s : String) : Option Nat :=
  let ds := s.toList.takeWhile Char.isDigit
  if ds.isEmpty then none
  else some (ds.foldl (fun a c => 10 * a + (c.toNat - 48)) 0)

/-- `Number.prototype.toFixed(1)` applied to `num / den`, modelled on the
exact rational quotient: round to the nearest multiple of 1/10 with ties
toward the larger candidate (ECMA-262 picks the larger `n` on a tie).  The
source divides in double precision before rounding, which can disagree with
the exact quotient only when the quotient is within one double ulp of a
half-way point. -/
def toFixed1 (num den : Nat) : String :=
  let scaled := (num * 10 + den / 2) / den
  Nat.repr (scaled / 10) ++ "." ++ Nat.repr (scaled % 10)

/-- `YouTubeService.formatSubscriberCount`. -/
def formatSubscriberCount (count : String) : String :=
  match parseIntStr count with
  | none => count
  | some num =>
    if 1000000000 ≤ num then toFixed1 num 1000000000 ++ "B"
    else if 1000000 ≤ num then toFixed1 num 1000000 ++ "M"
    else if 1000 ≤ num then toFixed1 num 1000 ++ "K"
    else count

/-- C10: the formatter returns the input string unchanged for every numeric
count below 1000, and for counts at or above the thresholds 1000, 1000000,
1000000000 returns the count divided by the largest applicable threshold
rendered with exactly one decimal place, suffixed K, M or B respectively;
1000 formats as "1.0K" and 999 is returned as-is. -/
theorem formatSubscriberCount_spec (s : String) (n : Nat)
    (h : parseIntStr s = some n) :
    (n < 1000 → formatSubscriberCount s = s) ∧
    (1000 ≤ n → n < 1000000 →
      formatSubscriberCount s = toFixed1 n 1000 ++ "K" ∧
      ∃ a b, b < 10 ∧
        formatSubscriberCount s = Nat.repr a ++ "." ++ Nat.repr b ++ "K") ∧
    (1000000 ≤ n → n < 1000000000 →
      formatSubscriberCount s = toFixed1 n 1000000 ++ "M" ∧
      ∃ a b, b < 10 ∧
        formatSubscriberCount s = Nat.repr a ++ "." ++ Nat.repr b ++ "M") ∧
    (1000000000 ≤ n →
      formatSubscriberCount s = toFixed1 n 1000000000 ++ "B" ∧
      ∃ a b, b < 10 ∧
        formatSubscriberCount s = Nat.repr a ++ "." ++ Nat.repr b ++ "B") ∧
    formatSubscriberCount "1000" = "1.0K" ∧
    formatSubscriberCount "999" = "999" := by
  refine ⟨?_, ?_, ?_, ?_, by decide, by decide⟩
  · intro hlt
    unfold formatSubscriberCount
    rw [h]
    have h1 : ¬ 1000000000 ≤ n := by omega
    have h2 : ¬ 1000000 ≤ n := by omega
    have h3 : ¬ 1000 ≤ n := by omega
    simp [h1, h2, h3]
  · intro hge hlt
    unfold formatSubscriberCount
    rw [h]
    have h1 : ¬ 1000000000 ≤ n := by omega
    have h2 : ¬ 1000000 ≤ n := by omega
    simp only [h1, h2, hge, if_neg, if_pos, if_true, if_false]
    refine ⟨by simp [hge], ?_⟩
    refine ⟨(n * 10 + 500) / 1000 / 10, (n * 10 + 500) / 1000 % 10,
      Nat.mod_lt _ (by omega), ?_⟩
    simp [hge, toFixed1]
  · intro hge hlt
    unfold formatSubscriberCount
    rw [h]
    have h1 : ¬ 1000000000 ≤ n := by omega
    refine ⟨by simp [h1, hge], ?_⟩
    refine ⟨(n * 10 + 500000) / 1000000 / 10, (n * 10 + 500000) / 1000000 % 10,
      Nat.mod_lt _ (by omega), ?_⟩
    simp [h1, hge, toFixed1]
  · intro hge
    unfold formatSubscriberCount
    rw [h]
    refine ⟨by simp [hge], ?_⟩
    refine ⟨(n * 10 + 500000000) / 1000000000 / 10,
      (n * 10 + 500000000) / 1000000000 % 10,
      Nat.mod_lt _ (by omega), ?_⟩
    simp [hge, toFixed1]

/-- Witness for C10 at a concrete input: 25300 subscribers format as the
one-decimal K rendering. -/
theorem formatSubscriberCount_spec_witness :
    parseIntStr "25300" = some 25300 ∧ 1000 ≤ 25300 ∧ 25300 < 1000000 ∧
    formatSubscriberCount "25300" = toFixed1 25300 1000 ++ "K" :=
  ⟨by decide, by decide, by decide,
    (((formatSubscriberCount_spec "25300" 25300 (by decide)).2.1
      (by decide) (by decide))).1⟩

/-! ### Command dispatcher (`CommandHandler`)

The dispatcher is embedded as a pure function from its mutable state, the
parsed command name and arguments, and an oracle `Env` supplying the results
of the external collaborators (remote fetcher, image pipeline, clock, queue
and cache introspection), to the new state and the chronological list of
observable effects (chat replies, network calls, render/clear submissions).
Each handler is the straight-line translation of its `async` method; the
`try/finally` resetting `isProcessing` is reflected by every exit of
`handleSubscribers`/`handleClear` returning `isProcessing := false`. -/

/-- `YouTubeService.getChannelData` result shape. -/
structure ChannelData where
  success : Bool
  channelName : String
  subscriberCount : String
  profileImageUrl : Option String
  channelId : String
  error : String
  deriving Repr, DecidableEq

/-- `this.liveUpdates` state of the command handler. -/
structure LiveUpdates where
  enabled : Bool
  intervalActive : Bool
  channelData : Option ChannelData
  startTime : Option Nat
  lastSubscriberCount : Option String
  deriving Repr, DecidableEq

/-- Mutable state of `CommandHandler`. -/
structure HState where
  isProcessing : Bool
  liveUpdates : LiveUpdates
  deriving Repr, DecidableEq

/-- Observable effects performed by the dispatcher. -/
inductive Eff where
  | say (msg : String)
  | netFetch (input : String)
  | netSearch (term : String)
  | clearAll
  | imageProcess (url : String)
  | renderChannel (subs : String)
  | clearQueue
  | clearColorCache
  | cleanupTmp
  | startPoll
  | stopPoll
  | sleepMs (ms : Nat)
  deriving Repr, DecidableEq

/-- Oracle for the results of external collaborators. -/
structure Env where
  fetchResult : ChannelData
  searchOk : Bool
  searchError : String
  searchResults : List (String × String)
  imageOk : Bool
  now : Nat
  queueLength : Nat
  cacheSize : Nat
  deriving Repr, DecidableEq

/-- JavaScript regex word characters `[A-Za-z0-9_]` plus the hyphen used in
the `[\w-]` character classes. -/
def isWordOrHyphen (c : Char) : Bool :=
  c.isAlphanum || c = '_' || c = '-'

/-- `s.includes(sub)` from JavaScript, for the unanchored URL pattern. -/
def containsSub (s sub : String) : Bool := (s.splitOn sub).length > 1

/-- `YouTubeService.isValidChannelInput`: the four accepted formats. -/
def isValidChannelInput (input : String) : Bool :=
  let cleaned := input.trim
  (cleaned.startsWith "UC" && cleaned.length == 24
      && (cleaned.toList.drop 2).all isWordOrHyphen)
  || (!cleaned.isEmpty && cleaned.toList.all isWordOrHyphen)
  || (cleaned.startsWith "@" && cleaned.length ≥ 2
      && (cleaned.toList.drop 1).all isWordOrHyphen)
  || containsSub cleaned "youtube.com/channel/"
  || containsSub cleaned "youtube.com/c/"
  || containsSub cleaned "youtube.com/user/"

/-- The busy reply of `CommandHandler.executeCommand`. -/
def pleaseWaitMsg : String := "⏳ Please wait, still processing previous command..."

/-- `CommandHandler.handleStopLiveUpdates`. -/
def handleStopLiveUpdates (st : HState) (env : Env) : HState × List Eff :=
  if !st.liveUpdates.enabled then
    (st, [Eff.say "❌ Live updates are not currently enabled."])
  else
    let stopEffs := if st.liveUpdates.intervalActive then [Eff.stopPoll] else []
    let dur := (env.now - st.liveUpdates.startTime.getD 0) / 1000
    ({ st with liveUpdates :=
        { st.liveUpdates with enabled := false, intervalActive := false } },
      stopEffs ++
        [Eff.say ("⏹️ Live updates stopped after " ++ Nat.repr dur ++ " seconds")])

/-- `CommandHandler.handleSubscribers` (also serves `channel`/`chan`). -/
def handleSubscribers (st : HState) (args : List String) (env : Env) :
    HState × List Eff :=
  if args.length = 0 then
    ({ st with isProcessing := false },
      [Eff.say "❓ Usage: !subs <channel_url_or_id_or_search_term>"])
  else
    let channelInput := String.intercalate " " args
    if !isValidChannelInput channelInput then
      ({ st with isProcessing := false },
        [Eff.say "❌ Invalid channel format. Please provide a YouTube channel URL, ID, @username, or search term."])
    else
      let pre := [Eff.say "🔍 Fetching channel data...", Eff.netFetch channelInput]
      let cd := env.fetchResult
      if !cd.success then
        ({ st with isProcessing := false },
          pre ++ [Eff.say ("❌ Failed to fetch channel data: " ++ cd.error)])
      else
        let found :=
          Eff.say ("✅ Found: " ++ cd.channelName ++ " (" ++
            formatSubscriberCount cd.subscriberCount ++ " subs)")
        let st1 := { st with liveUpdates :=
          { st.liveUpdates with
              channelData := some cd,
              lastSubscriberCount := some cd.subscriberCount } }
        let imgEffs :=
          match cd.profileImageUrl with
          | some url =>
            if env.imageOk then
              [Eff.say "🖼️ Processing profile image...", Eff.imageProcess url]
            else
              [Eff.say "🖼️ Processing profile image...", Eff.imageProcess url,
                Eff.say "⚠️ Profile image failed, showing subscriber count only"]
          | none => []
        ({ st1 with isProcessing := false },
          pre ++ [found, Eff.say "🧹 Clearing existing displays...", Eff.clearAll]
            ++ imgEffs
            ++ [Eff.say "🎮 Rendering in Minecraft...",
                Eff.renderChannel cd.subscriberCount,
                Eff.say "✨ Display complete!",
                Eff.say "💡 Use !live to enable live subscriber count updates (optimized for efficiency)!",
                Eff.cleanupTmp])

/-- `CommandHandler.handleChannelInfo`. -/
def handleChannelInfo (st : HState) (args : List String) (env : Env) :
    HState × List Eff :=
  if args.length = 0 then
    (st, [Eff.say "❓ Usage: !info <channel_url_or_id_or_search_term>"])
  else
    let channelInput := String.intercalate " " args
    if !isValidChannelInput channelInput then
      (st, [Eff.say "❌ Invalid channel format."])
    else
      let pre := [Eff.say "🔍 Fetching channel info...", Eff.netFetch channelInput]
      let cd := env.fetchResult
      if !cd.success then
        (st, pre ++ [Eff.say ("❌ Failed to fetch channel: " ++ cd.error)])
      else
        (st, pre ++
          [Eff.say ("📊 " ++ cd.channelName),
            Eff.say ("👥 Subscribers: " ++ cd.subscriberCount ++ " (" ++
              formatSubscriberCount cd.subscriberCount ++ ")"),
            Eff.say ("🆔 Channel ID: " ++ cd.channelId)])

/-- `CommandHandler.handleChannelSearch`. -/
def handleChannelSearch (st : HState) (args : List String) (env : Env) :
    HState × List Eff :=
  if args.length = 0 then
    (st, [Eff.say "❓ Usage: !search <search_term>"])
  else
    let term := String.intercalate " " args
    let pre := [Eff.say ("🔍 Searching for channels: \"" ++ term ++ "\""),
      Eff.netSearch term]
    if !env.searchOk then
      (st, pre ++ [Eff.say ("❌ Search failed: " ++ env.searchError)])
    else if env.searchResults.length = 0 then
      (st, pre ++ [Eff.say "❌ No channels found for your search term."])
    else
      (st, pre ++
        [Eff.say ("📋 Found " ++ Nat.repr env.searchResults.length ++ " channels:")]
        ++ ((env.searchResults.take 5).enum.flatMap fun p =>
            [Eff.say (Nat.repr (p.1 + 1) ++ ". " ++ p.2.1 ++ " (" ++ p.2.2 ++ ")"),
              Eff.sleepMs 500])
        ++ [Eff.say "💡 Use !subs <channel_name> to display subscriber count!"])

/-- `CommandHandler.handleLiveUpdates`. -/
def handleLiveUpdates (st : HState) (env : Env) : HState × List Eff :=
  match st.liveUpdates.channelData with
  | none => (st, [Eff.say "❌ No channel data available. Use !subs <channel> first!"])
  | some cd =>
    if st.liveUpdates.enabled then
      (st, [Eff.say "❌ Live updates are already enabled! Use !stop to disable them."])
    else
      ({ st with liveUpdates :=
          { st.liveUpdates with
              enabled := true, startTime := some env.now, intervalActive := true } },
        [Eff.say ("🔴 Live updates enabled for " ++ cd.channelName),
          Eff.say "📊 Checking for subscriber changes every 2 seconds...",
          Eff.startPoll])

/-- `CommandHandler.handleClear` (also serves `reset`). -/
def handleClear (st : HState) (env : Env) : HState × List Eff :=
  let stopPart :=
    if st.liveUpdates.enabled then handleStopLiveUpdates st env else (st, [])
  let st1 := stopPart.1
  ({ st1 with
      isProcessing := false,
      liveUpdates :=
        { st1.liveUpdates with channelData := none, lastSubscriberCount := none } },
    [Eff.say "🧹 Clearing displays..."] ++ stopPart.2
      ++ [Eff.clearAll, Eff.say "✅ All displays cleared!"])

/-- `CommandHandler.handleReload`. -/
def handleReload (st : HState) (env : Env) : HState × List Eff :=
  let stopPart :=
    if st.liveUpdates.enabled then handleStopLiveUpdates st env else (st, [])
  let st1 := stopPart.1
  ({ st1 with liveUpdates :=
      { st1.liveUpdates with channelData := none, lastSubscriberCount := none } },
    [Eff.say "🔄 Reloading bot systems..."] ++ stopPart.2
      ++ [Eff.clearColorCache, Eff.clearQueue, Eff.cleanupTmp,
          Eff.say "✅ Bot reloaded successfully!"])

/-- `MinecraftRenderer.showHelp` as the effect list it performs. -/
def showHelpEffs : List Eff :=
  ["🤖 YouTube Display Bot Commands:",
    "!subs <channel> - Display subscriber count and profile",
    "!info <channel> - Get channel info only",
    "!search <term> - Search for YouTube channels",
    "!live - Enable live subscriber updates (optimized)",
    "!stop - Stop live updates",
    "!clear - Clear all displays",
    "!help - Show this help message",
    "!status - Show bot status",
    "!stats - Show detailed statistics"].flatMap fun m => [Eff.say m, Eff.sleepMs 500]

/-- `MinecraftRenderer.showStatus` as the effect list it performs. -/
def showStatusEffs (st : HState) (env : Env) : List Eff :=
  [Eff.say ("🟢 Bot Status: Active | Queue: " ++ Nat.repr env.queueLength ++
      " | Cache: " ++ Nat.repr env.cacheSize)]
  ++ (if st.liveUpdates.enabled then
        [Eff.say ("🔴 Live Updates: Active for " ++
          ((st.liveUpdates.channelData.map ChannelData.channelName).getD "") ++
          " (" ++ Nat.repr ((env.now - st.liveUpdates.startTime.getD 0) / 1000) ++ "s)")]
      else [Eff.say "⚫ Live Updates: Disabled"])

/-- `CommandHandler.executeCommand`: the busy guard followed by the command
switch.  The guard names exactly `subs`, `channel` and `clear`. -/
def executeCommand (st : HState) (command : String) (args : List String)
    (env : Env) : HState × List Eff :=
  if st.isProcessing &&
      (command == "subs" || command == "channel" || command == "clear") then
    (st, [Eff.say pleaseWaitMsg])
  else if command == "subs" || command == "subscribers" then
    handleSubscribers st args env
  else if command == "channel" || command == "chan" then
    handleSubscribers st args env
  else if command == "info" then handleChannelInfo st args env
  else if command == "search" then handleChannelSearch st args env
  else if command == "live" then handleLiveUpdates st env
  else if command == "stop" || command == "stoplive" then
    handleStopLiveUpdates st env
  else if command == "clear" || command == "reset" then handleClear st env
  else if command == "help" || command == "commands" then (st, showHelpEffs)
  else if command == "status" then (st, showStatusEffs st env)
  else if command == "reload" then handleReload st env
  else (st, [Eff.say ("❓ Unknown command: " ++ command ++
      ". Use !help for available commands.")])

/-- Effects that touch the network, the render displays, or the channel
queue — everything beyond a pure chat reply. -/
def effTouchesWorld : Eff → Bool
  | Eff.netFetch _ => true
  | Eff.netSearch _ => true
  | Eff.clearAll => true
  | Eff.imageProcess _ => true
  | Eff.renderChannel _ => true
  | Eff.clearQueue => true
  | Eff.clearColorCache => true
  | Eff.startPoll => true
  | Eff.stopPoll => true
  | _ => false

/-- C9: while the dispatcher is Busy, an incoming `subs` (or `channel` or
`clear`) command replies a please-wait message and is otherwise ignored: it
performs no network call, issues no render or clear operations, and leaves
the dispatcher state (Busy flag, live-update state, remembered channel
data) unchanged. -/
theorem busy_guard (st : HState) (command : String) (args : List String)
    (env : Env) (hbusy : st.isProcessing = true)
    (hcmd : command = "subs" ∨ command = "channel" ∨ command = "clear") :
    executeCommand st command args env = (st, [Eff.say pleaseWaitMsg]) ∧
    (executeCommand st command args env).2.all
      (fun e => !effTouchesWorld e) = true ∧
    (executeCommand st command args env).1.isProcessing = st.isProcessing ∧
    (executeCommand st command args env).1.liveUpdates = st.liveUpdates := by
  have hguard : (st.isProcessing &&
      (command == "subs" || command == "channel" || command == "clear")) = true := by
    rcases hcmd with h | h | h <;> subst h <;> simp [hbusy]
  have hres : executeCommand st command args env = (st, [Eff.say pleaseWaitMsg]) := by
    unfold executeCommand
    rw [if_pos hguard]
  refine ⟨hres, ?_, ?_, ?_⟩
  · rw [hres]; rfl
  · rw [hres]
  · rw [hres]

/-- A concrete busy dispatcher state used by the C9 witness. -/
def busyStateW : HState :=
  { isProcessing := true,
    liveUpdates :=
      { enabled := false, intervalActive := false, channelData := none,
        startTime := none, lastSubscriberCount := none } }

/-- A concrete oracle used by the C9 witness. -/
def envW : Env :=
  { fetchResult :=
      { success := true, channelName := "x", subscriberCount := "1",
        profileImageUrl := none, channelId := "id", error := "" },
    searchOk := true, searchError := "", searchResults := [],
    imageOk := true, now := 0, queueLength := 0, cacheSize := 0 }

/-- Witness for C9: a concrete busy state receiving `subs` is left unchanged
and only the please-wait reply is emitted. -/
theorem busy_guard_witness :
    executeCommand busyStateW "subs" ["someChannel"] envW =
      (busyStateW, [Eff.say pleaseWaitMsg]) :=
  (busy_guard busyStateW "subs" ["someChannel"] envW rfl (Or.inl rfl)).1

/-! ### Rate-limited command channel (`CommandSystem`, src/utils/commandSystem.js)

The channel is embedded as a timed transition system.  Each transition is
one synchronous JavaScript segment between suspension points:

* `Act.submit t text priority` — a `sendCommand` call running at
  `Date.now() = t` (empty-text rejection; slash enforcement; the immediate
  path when `priority` or 50ms have elapsed; otherwise push onto the queue
  and run `processQueue` up to its first `await`);
* `Act.wake t` — the drain loop's `sleep` continuation running at time `t`;
  a timer only guarantees *not earlier than* its due time, so `t` is any
  time `≥` the recorded wake-up point, and other events may run in between;
* `Act.clear t` — a `clearQueue` call at time `t`.

`uuid.v4()` is modelled by the fresh counter `nextReq`; promise identities
by the fresh counter `nextId`.  The socket write always succeeds (socket
failures are outside the claims considered here). -/

/-- The JSON envelope built by `CommandSystem.executeCommand`. -/
structure Message where
  headerVersion : Nat
  requestId : Nat
  messagePurpose : String
  messageType : String
  bodyVersion : Nat
  commandLine : String
  originType : String
  deriving Repr, DecidableEq

/-- A queued `commandData`: the slash-enforced text, plus the ghost fields
`cmdId` (identity of the pending promise) and `orig` (the text as submitted,
recorded only to state slash-enforcement theorems). -/
structure QCmd where
  cmdId : Nat
  text : String
  orig : String
  deriving Repr, DecidableEq

/-- One wire write: which command, when, with which envelope.  `viaQueue`
records whether the drain loop performed the send (queued path) rather than
`sendCommand` directly (immediate path); `prio` records the submission's
priority flag.  Both are ghost observations. -/
structure SendEvent where
  cmdId : Nat
  time : Nat
  msg : Message
  orig : String
  viaQueue : Bool
  prio : Bool
  deriving Repr, DecidableEq

/-- `command.startsWith('/')`: the string begins with a slash.  (Defined
over the character list so that it evaluates inside the kernel.) -/
def startsWithSlash (s : String) : Bool :=
  match s.toList with
  | [] => false
  | c :: _ => c = '/'

/-- `command.startsWith('/') ? command : '/' + command`. -/
def enforceSlash (command : String) : String :=
  if startsWithSlash command then command else "/" ++ command

/-- Channel state between event-loop turns.  `waitingUntil = some w` means
the drain loop (`processQueue`) is suspended in `sleep` and its continuation
runs at some time `≥ w`.  `crashed` records that the drain continuation
threw — `shift()` on a queue emptied during the sleep returns `undefined`
and `executeCommand` throws on destructuring it — so the drain never runs
again while `isProcessing` is stuck at `true`. -/
structure ChanState where
  lastCommandTime : Nat
  commandQueue : List QCmd
  isProcessing : Bool
  waitingUntil : Option Nat
  crashed : Bool
  now : Nat
  nextId : Nat
  nextReq : Nat
  settled : List (Nat × Bool)
  sends : List SendEvent
  deriving Repr, DecidableEq

/-- Promise settlement lookup (`some true` resolved, `some false` rejected,
`none` still pending). -/
def settleLookup : List (Nat × Bool) → Nat → Option Bool
  | [], _ => none
  | p :: rest, i => if p.1 = i then some p.2 else settleLookup rest i

/-- The events the channel reacts to, each carrying the `Date.now()` at
which its synchronous code runs. -/
inductive Act where
  | submit (t : Nat) (text : String) (priority : Bool)
  | wake (t : Nat)
  | clear (t : Nat)
  deriving Repr, DecidableEq

/-- The wire write performed by `CommandSystem.executeCommand`. -/
def execEvent (s : ChanState) (t : Nat) (c : QCmd) (viaQueue prio : Bool) :
    SendEvent :=
  { cmdId := c.cmdId, time := t, orig := c.orig, viaQueue := viaQueue,
    prio := prio,
    msg :=
      { headerVersion := 1, requestId := s.nextReq,
        messagePurpose := "commandRequest",
        messageType := "commandRequest",
        bodyVersion := 1, commandLine := c.text,
        originType := "player" } }

/-- `CommandSystem.executeCommand` at time `t`: build the envelope, write it
to the socket, record the send time, resolve the command's promise. -/
def execCmd (s : ChanState) (t : Nat) (c : QCmd) (viaQueue prio : Bool) :
    ChanState :=
  { s with
      lastCommandTime := t,
      nextReq := s.nextReq + 1,
      settled := (c.cmdId, true) :: s.settled,
      sends := s.sends ++ [execEvent s t c viaQueue prio] }

/-- `CommandSystem.sendCommand` running at time `t`. -/
def stepSubmit (s : ChanState) (t : Nat) (text : String) (priority : Bool) :
    Option ChanState :=
  if t < s.now then none
  else if text = "" then
    some { s with now := t, nextId := s.nextId + 1,
                  settled := (s.nextId, false) :: s.settled }
  else if priority || decide (commandDelay ≤ t - s.lastCommandTime) then
    some (execCmd { s with now := t, nextId := s.nextId + 1 } t
      { cmdId := s.nextId, text := enforceSlash text, orig := text }
      false priority)
  else if s.isProcessing then
    some { s with now := t, nextId := s.nextId + 1,
                  commandQueue := s.commandQueue ++
                    [{ cmdId := s.nextId, text := enforceSlash text,
                       orig := text }] }
  else
    some { s with now := t, nextId := s.nextId + 1,
                  commandQueue := s.commandQueue ++
                    [{ cmdId := s.nextId, text := enforceSlash text,
                       orig := text }],
                  isProcessing := true,
                  waitingUntil := some (s.lastCommandTime + commandDelay) }

/-- The drain loop's continuation after `sleep`, running at time `t`: shift
the head without re-checking the elapsed time, execute it, then either sleep
again (recorded wake-up `t + commandDelay`), finish (`isProcessing :=
false`), or — if the queue was emptied during the sleep — throw. -/
def stepWake (s : ChanState) (t : Nat) : Option ChanState :=
  match s.waitingUntil with
  | none => none
  | some w =>
    if t < s.now then none
    else if t < w then none
    else
      match s.commandQueue with
      | [] => some { s with now := t, waitingUntil := none, crashed := true }
      | c :: rest =>
        if rest.isEmpty then
          some { (execCmd { s with now := t, waitingUntil := none,
                                   commandQueue := rest } t c true false)
                  with isProcessing := false }
        else
          some { (execCmd { s with now := t, waitingUntil := none,
                                   commandQueue := rest } t c true false)
                  with waitingUntil := some (t + commandDelay) }

/-- `CommandSystem.clearQueue` at time `t`: reject every queued command and
empty the queue. -/
def stepClear (s : ChanState) (t : Nat) : Option ChanState :=
  if t < s.now then none
  else
    some { s with now := t,
                  settled := (s.commandQueue.map fun c => (c.cmdId, false))
                    ++ s.settled,
                  commandQueue := [] }

/-- One atomic step of the channel. -/
def step (s : ChanState) : Act → Option ChanState
  | Act.submit t text priority => stepSubmit s t text priority
  | Act.wake t => stepWake s t
  | Act.clear t => stepClear s t

/-- Run a sequence of events; `none` when an event is impossible in its
state. -/
def run (s : ChanState) : List Act → Option ChanState
  | [] => some s
  | a :: acts =>
    match step s a with
    | none => none
    | some s₁ => run s₁ acts

/-- The channel as constructed. -/
def chanInit : ChanState :=
  { lastCommandTime := 0, commandQueue := [], isProcessing := false,
    waitingUntil := none, crashed := false, now := 0, nextId := 0,
    nextReq := 0, settled := [], sends := [] }

/-- Adjacent wire sends (`sends` is chronological) are separated by at least
`commandDelay`. -/
def gapsOKb : List SendEvent → Bool
  | a :: b :: rest => decide (commandDelay ≤ b.time - a.time) && gapsOKb (b :: rest)
  | _ => true

/-- Every submit event in the list is non-priority. -/
def allNonPrio : List Act → Bool
  | [] => true
  | Act.submit _ _ p :: rest => !p && allNonPrio rest
  | _ :: rest => allNonPrio rest

/-- No `clear` event in the list. -/
def noClearb : List Act → Bool
  | [] => true
  | Act.clear _ :: _ => false
  | _ :: rest => noClearb rest

/-- Strictly increasing adjacent entries. -/
def chainLtB : List Nat → Bool
  | a :: b :: rest => decide (a < b) && chainLtB (b :: rest)
  | _ => true

/-- The claimed FIFO order: all non-priority sends occur in submission order
(promise identities are allotted in submission order). -/
def fifoOKb (l : List SendEvent) : Bool :=
  chainLtB ((l.filter fun e => !e.prio).map SendEvent.cmdId)

/-- An immediate-path non-priority `sendCommand` arriving while the drain is
suspended mid-sleep — the interleaving under which the drain then sends
without re-checking the elapsed time. -/
def isMidWaitImm (s : ChanState) : Act → Bool
  | Act.submit t text priority =>
    s.waitingUntil.isSome && !priority && !(text == "") &&
      decide (commandDelay ≤ t - s.lastCommandTime) && decide (s.now ≤ t)
  | _ => false

/-- No event of the run is an immediate-path submission landing mid-wait. -/
def noMidWaitImm (s : ChanState) : List Act → Bool
  | [] => true
  | a :: acts =>
    !(isMidWaitImm s a) &&
      (match step s a with
       | some s₁ => noMidWaitImm s₁ acts
       | none => true)

/-- The interleaving refuting the unconditional gap claim: `k` is queued and
sent at 50; `a` is queued at 60 (drain sleeps until 100); at 105 — the
drain's timer being due but not yet run — submission `b` passes the
elapsed-time check and sends immediately; the drain continuation then runs
at 106 and sends `a` without re-checking, 1ms after `b`. -/
def c2Trace : List Act :=
  [Act.submit 0 "k" false, Act.wake 50, Act.submit 60 "a" false,
   Act.submit 105 "b" false, Act.wake 106]

/-- C2 counterexample: a sequence of non-priority submissions in which two
successive wire sends are 1ms apart, far below the 50ms minimum interval —
the claim fails exactly when an immediate-path submission interleaves with a
drain mid-wait. -/
theorem gap_claim_false :
    allNonPrio c2Trace = true ∧
    (run chanInit c2Trace).map (fun s => gapsOKb s.sends) = some false := by
  decide

/-- Same interleaving shape with distinct labels for the FIFO claim. -/
def c3Trace : List Act :=
  [Act.submit 0 "x" false, Act.wake 50, Act.submit 60 "y" false,
   Act.submit 110 "z" false, Act.wake 111]

/-- C3 counterexample: all submissions are non-priority, yet `z`, submitted
after `y`, is sent before `y`: an immediate-path submission jumps ahead of a
queued one, violating FIFO order among non-priority commands. -/
theorem fifo_claim_false :
    allNonPrio c3Trace = true ∧
    (run chanInit c3Trace).map (fun s => fifoOKb s.sends) = some false := by
  decide

/-! ### Reachability infrastructure for the channel -/

theorem settleLookup_lt_none (l : List (Nat × Bool)) (n : Nat)
    (h : ∀ p ∈ l, p.1 < n) : settleLookup l n = none := by
  induction l with
  | nil => rfl
  | cons p rest ih =>
    have hp : p.1 ≠ n := Nat.ne_of_lt (h p (List.mem_cons_self p rest))
    simp only [settleLookup, if_neg hp]
    exact ih fun q hq => h q (List.mem_cons_of_mem p hq)

theorem settleLookup_cons_ne (p : Nat × Bool) (l : List (Nat × Bool)) (n : Nat)
    (h : p.1 ≠ n) : settleLookup (p :: l) n = settleLookup l n := by
  simp only [settleLookup, if_neg h]

theorem settleLookup_clear_mem (q : List QCmd) (c : QCmd)
    (l : List (Nat × Bool)) (hc : c ∈ q) :
    settleLookup ((q.map fun x => (x.cmdId, false)) ++ l) c.cmdId =
      some false := by
  induction q with
  | nil => cases hc
  | cons x rest ih =>
    by_cases h : x.cmdId = c.cmdId
    · simp only [List.map_cons, List.cons_append, settleLookup, if_pos h]
    · rcases List.mem_cons.mp hc with h2 | h2
      · subst h2; exact absurd rfl h
      · simp only [List.map_cons, List.cons_append, settleLookup, if_neg h]
        exact ih h2

theorem settleLookup_clear_not_mem (q : List QCmd) (n : Nat)
    (l : List (Nat × Bool)) (h : ∀ c ∈ q, c.cmdId ≠ n) :
    settleLookup ((q.map fun x => (x.cmdId, false)) ++ l) n =
      settleLookup l n := by
  induction q with
  | nil => rfl
  | cons x rest ih =>
    simp only [List.map_cons, List.cons_append, settleLookup,
      if_neg (h x (List.mem_cons_self x rest))]
    exact ih fun c hc => h c (List.mem_cons_of_mem x hc)

theorem gapsOKb_concat (l : List SendEvent) (e : SendEvent) :
    gapsOKb (l ++ [e]) =
      (gapsOKb l &&
        match l.getLast? with
        | none => true
        | some a => decide (commandDelay ≤ e.time - a.time)) := by
  induction l with
  | nil => rfl
  | cons x xs ih =>
    cases xs with
    | nil => simp [gapsOKb]
    | cons y ys =>
      show (decide (commandDelay ≤ y.time - x.time)
          && gapsOKb ((y :: ys) ++ [e])) = _
      rw [ih, List.getLast?_cons_cons]
      show _ = ((decide (commandDelay ≤ y.time - x.time)
          && gapsOKb (y :: ys)) && _)
      rw [Bool.and_assoc]

/-- Case analysis for `step s a = some s₁`: one constructor per control path
of `sendCommand`, the drain continuation, and `clearQueue`. -/
inductive StepView (s : ChanState) : Act → ChanState → Prop where
  | reject (t : Nat) (priority : Bool) (hnow : s.now ≤ t) :
      StepView s (Act.submit t "" priority)
        { s with now := t, nextId := s.nextId + 1,
                 settled := (s.nextId, false) :: s.settled }
  | exec (t : Nat) (text : String) (priority : Bool) (hnow : s.now ≤ t)
      (htext : text ≠ "")
      (hcond : priority = true ∨ commandDelay ≤ t - s.lastCommandTime) :
      StepView s (Act.submit t text priority)
        (execCmd { s with now := t, nextId := s.nextId + 1 } t
          { cmdId := s.nextId, text := enforceSlash text, orig := text }
          false priority)
  | enqueueBusy (t : Nat) (text : String) (hnow : s.now ≤ t) (htext : text ≠ "")
      (hdel : ¬ commandDelay ≤ t - s.lastCommandTime)
      (hproc : s.isProcessing = true) :
      StepView s (Act.submit t text false)
        { s with now := t, nextId := s.nextId + 1,
                 commandQueue := s.commandQueue ++
                   [{ cmdId := s.nextId, text := enforceSlash text,
                      orig := text }] }
  | enqueueStart (t : Nat) (text : String) (hnow : s.now ≤ t) (htext : text ≠ "")
      (hdel : ¬ commandDelay ≤ t - s.lastCommandTime)
      (hproc : s.isProcessing = false) :
      StepView s (Act.submit t text false)
        { s with now := t, nextId := s.nextId + 1,
                 commandQueue := s.commandQueue ++
                   [{ cmdId := s.nextId, text := enforceSlash text,
                      orig := text }],
                 isProcessing := true,
                 waitingUntil := some (s.lastCommandTime + commandDelay) }
  | wakeCrash (t w : Nat) (hw : s.waitingUntil = some w) (hnow : s.now ≤ t)
      (hge : w ≤ t) (hq : s.commandQueue = []) :
      StepView s (Act.wake t)
        { s with now := t, waitingUntil := none, crashed := true,
                 commandQueue := [] }
  | wakeExecLast (t w : Nat) (c : QCmd) (hw : s.waitingUntil = some w)
      (hnow : s.now ≤ t) (hge : w ≤ t) (hq : s.commandQueue = [c]) :
      StepView s (Act.wake t)
        { (execCmd { s with now := t, waitingUntil := none,
                            commandQueue := [] } t c true false)
            with isProcessing := false }
  | wakeExecMore (t w : Nat) (c : QCmd) (rest : List QCmd)
      (hw : s.waitingUntil = some w) (hnow : s.now ≤ t) (hge : w ≤ t)
      (hq : s.commandQueue = c :: rest) (hrest : rest ≠ []) :
      StepView s (Act.wake t)
        { (execCmd { s with now := t, waitingUntil := none,
                            commandQueue := rest } t c true false)
            with waitingUntil := some (t + commandDelay) }
  | clearQ (t : Nat) (hnow : s.now ≤ t) :
      StepView s (Act.clear t)
        { s with now := t,
                 settled := (s.commandQueue.map fun c => (c.cmdId, false))
                   ++ s.settled,
                 commandQueue := [] }

theorem step_view {s s₁ : ChanState} {a : Act} (h : step s a = some s₁) :
    StepView s a s₁ := by
  cases a with
  | submit t text priority =>
    simp only [step] at h
    unfold stepSubmit at h
    by_cases ht : t < s.now
    · rw [if_pos ht] at h; cases h
    · rw [if_neg ht] at h
      have hnow : s.now ≤ t := Nat.le_of_not_lt ht
      by_cases htext : text = ""
      · rw [if_pos htext] at h
        injection h with h2
        subst htext
        exact h2 ▸ StepView.reject t priority hnow
      · rw [if_neg htext] at h
        by_cases hcond :
            (priority || decide (commandDelay ≤ t - s.lastCommandTime)) = true
        · rw [if_pos hcond] at h
          injection h with h2
          exact h2 ▸ StepView.exec t text priority hnow htext (by simpa using hcond)
        · rw [if_neg hcond] at h
          have hp : priority = false := by
            cases priority
            · rfl
            · simp at hcond
          subst hp
          have hdel : ¬ commandDelay ≤ t - s.lastCommandTime := by
            intro hle
            exact hcond (by simp [hle])
          by_cases hproc : s.isProcessing = true
          · rw [if_pos hproc] at h
            injection h with h2
            exact h2 ▸ StepView.enqueueBusy t text hnow htext hdel hproc
          · rw [if_neg hproc] at h
            injection h with h2
            have hpf : s.isProcessing = false := by
              cases hb : s.isProcessing
              · rfl
              · exact absurd hb hproc
            exact h2 ▸ StepView.enqueueStart t text hnow htext hdel hpf
  | wake t =>
    simp only [step] at h
    unfold stepWake at h
    cases hw : s.waitingUntil with
    | none =>
      simp only [hw] at h
      exact Option.noConfusion h
    | some w =>
      simp only [hw] at h
      by_cases ht : t < s.now
      · rw [if_pos ht] at h; cases h
      · rw [if_neg ht] at h
        by_cases htw : t < w
        · rw [if_pos htw] at h; cases h
        · rw [if_neg htw] at h
          have hnow := Nat.le_of_not_lt ht
          have hge := Nat.le_of_not_lt htw
          cases hq : s.commandQueue with
          | nil =>
            simp only [hq] at h
            injection h with h2
            exact h2 ▸ StepView.wakeCrash t w hw hnow hge hq
          | cons c rest =>
            cases rest with
            | nil =>
              simp only [hq, List.isEmpty_nil, if_true] at h
              injection h with h2
              exact h2 ▸ StepView.wakeExecLast t w c hw hnow hge hq
            | cons c2 rest2 =>
              simp only [hq, List.isEmpty_cons, Bool.false_eq_true,
                if_false] at h
              injection h with h2
              exact h2 ▸ StepView.wakeExecMore t w c (c2 :: rest2) hw hnow hge
                hq (List.cons_ne_nil c2 rest2)
  | clear t =>
    simp only [step] at h
    unfold stepClear at h
    by_cases ht : t < s.now
    · rw [if_pos ht] at h; cases h
    · rw [if_neg ht] at h
      injection h with h2
      exact h2 ▸ StepView.clearQ t (Nat.le_of_not_lt ht)

theorem run_cons (s : ChanState) (a : Act) (acts : List Act) :
    run s (a :: acts) = (step s a).bind fun s₁ => run s₁ acts := by
  show (match step s a with
        | none => none
        | some s₁ => run s₁ acts) = _
  cases step s a <;> rfl

theorem run_append (l₁ l₂ : List Act) : ∀ s : ChanState,
    run s (l₁ ++ l₂) = (run s l₁).bind fun s₁ => run s₁ l₂ := by
  induction l₁ with
  | nil => intro s; rfl
  | cons a rest ih =>
    intro s
    rw [List.cons_append, run_cons, run_cons]
    cases step s a with
    | none => rfl
    | some s₁ => exact ih s₁

theorem step_sends_extend {s s₁ : ChanState} {a : Act}
    (h : step s a = some s₁) : ∃ tail, s₁.sends = s.sends ++ tail := by
  cases step_view h with
  | reject t priority hnow => exact ⟨[], (List.append_nil _).symm⟩
  | exec t text priority hnow htext hcond => exact ⟨_, rfl⟩
  | enqueueBusy t text hnow htext hdel hproc =>
    exact ⟨[], (List.append_nil _).symm⟩
  | enqueueStart t text hnow htext hdel hproc =>
    exact ⟨[], (List.append_nil _).symm⟩
  | wakeCrash t w hw hnow hge hq => exact ⟨[], (List.append_nil _).symm⟩
  | wakeExecLast t w c hw hnow hge hq => exact ⟨_, rfl⟩
  | wakeExecMore t w c rest hw hnow hge hq hrest => exact ⟨_, rfl⟩
  | clearQ t hnow => exact ⟨[], (List.append_nil _).symm⟩

theorem run_sends_extend (acts : List Act) : ∀ {s s₁ : ChanState},
    run s acts = some s₁ → ∃ tail, s₁.sends = s.sends ++ tail := by
  induction acts with
  | nil =>
    intro s s₁ h
    cases h
    exact ⟨[], (List.append_nil _).symm⟩
  | cons a rest ih =>
    intro s s₁ h
    rw [run_cons] at h
    cases hstep : step s a with
    | none => rw [hstep] at h; cases h
    | some s2 =>
      rw [hstep] at h
      obtain ⟨t1, ht1⟩ := step_sends_extend hstep
      obtain ⟨t2, ht2⟩ := ih h
      exact ⟨t1 ++ t2, by rw [ht2, ht1, List.append_assoc]⟩

/-- Invariants of every reachable channel state: time bookkeeping, freshness
of promise identities and request ids, FIFO structure of the queue, the
pending/settled/sent status discipline, and the fixed envelope shape of
every send. -/
structure CoreInv (s : ChanState) : Prop where
  last_le_now : s.lastCommandTime ≤ s.now
  last_send_time : ∀ e, s.sends.getLast? = some e → e.time = s.lastCommandTime
  queue_lt : ∀ c ∈ s.commandQueue, c.cmdId < s.nextId
  sends_lt : ∀ e ∈ s.sends, e.cmdId < s.nextId
  settled_lt : ∀ p ∈ s.settled, p.1 < s.nextId
  queue_unsettled : ∀ c ∈ s.commandQueue, settleLookup s.settled c.cmdId = none
  queue_unsent : ∀ c ∈ s.commandQueue, ∀ e ∈ s.sends, e.cmdId ≠ c.cmdId
  queue_sorted : s.commandQueue.Pairwise fun a b => a.cmdId < b.cmdId
  sends_nodup : s.sends.Pairwise fun a b => a.cmdId ≠ b.cmdId
  queue_slash : ∀ c ∈ s.commandQueue, c.text = enforceSlash c.orig
  env_ok : ∀ e ∈ s.sends,
    e.msg.headerVersion = 1 ∧ e.msg.messagePurpose = "commandRequest" ∧
    e.msg.messageType = "commandRequest" ∧ e.msg.bodyVersion = 1 ∧
    e.msg.originType = "player" ∧ e.msg.commandLine = enforceSlash e.orig
  req_lt : ∀ e ∈ s.sends, e.msg.requestId < s.nextReq
  req_nodup : s.sends.Pairwise fun a b => a.msg.requestId ≠ b.msg.requestId
  vq_sorted : s.sends.Pairwise
    fun a b => a.viaQueue = true → b.viaQueue = true → a.cmdId < b.cmdId
  queue_after_sent : ∀ c ∈ s.commandQueue, ∀ e ∈ s.sends,
    e.viaQueue = true → e.cmdId < c.cmdId

theorem coreInv_init : CoreInv chanInit := by
  constructor <;> simp [chanInit]

theorem inv_enqueue {s : ChanState} (inv : CoreInv s) {t : Nat} {text : String}
    (hnow : s.now ≤ t) {s₁ : ChanState}
    (hlast : s₁.lastCommandTime = s.lastCommandTime)
    (hqueue : s₁.commandQueue = s.commandQueue ++
      [{ cmdId := s.nextId, text := enforceSlash text, orig := text }])
    (hnow1 : s₁.now = t) (hnext : s₁.nextId = s.nextId + 1)
    (hreq : s₁.nextReq = s.nextReq) (hsettled : s₁.settled = s.settled)
    (hsends : s₁.sends = s.sends) : CoreInv s₁ := by
  refine ⟨?_, ?_, ?_, ?_, ?_, ?_, ?_, ?_, ?_, ?_, ?_, ?_, ?_, ?_, ?_⟩
  · rw [hlast, hnow1]; exact Nat.le_trans inv.last_le_now hnow
  · rw [hsends, hlast]; exact inv.last_send_time
  · rw [hqueue, hnext]
    intro c hc
    rcases List.mem_append.mp hc with h1 | h1
    · exact Nat.lt_succ_of_lt (inv.queue_lt c h1)
    · rw [List.mem_singleton] at h1; subst h1; exact Nat.lt_succ_self _
  · rw [hsends, hnext]
    exact fun e he => Nat.lt_succ_of_lt (inv.sends_lt e he)
  · rw [hsettled, hnext]
    exact fun p hp => Nat.lt_succ_of_lt (inv.settled_lt p hp)
  · rw [hqueue, hsettled]
    intro c hc
    rcases List.mem_append.mp hc with h1 | h1
    · exact inv.queue_unsettled c h1
    · rw [List.mem_singleton] at h1; subst h1
      exact settleLookup_lt_none _ _ inv.settled_lt
  · rw [hqueue, hsends]
    intro c hc e he
    rcases List.mem_append.mp hc with h1 | h1
    · exact inv.queue_unsent c h1 e he
    · rw [List.mem_singleton] at h1; subst h1
      exact Nat.ne_of_lt (inv.sends_lt e he)
  · rw [hqueue, List.pairwise_append]
    refine ⟨inv.queue_sorted, by simp, fun a ha b hb => ?_⟩
    rw [List.mem_singleton] at hb; subst hb
    exact inv.queue_lt a ha
  · rw [hsends]; exact inv.sends_nodup
  · rw [hqueue]
    intro c hc
    rcases List.mem_append.mp hc with h1 | h1
    · exact inv.queue_slash c h1
    · rw [List.mem_singleton] at h1; subst h1; rfl
  · rw [hsends]; exact inv.env_ok
  · rw [hsends, hreq]; exact inv.req_lt
  · rw [hsends]; exact inv.req_nodup
  · rw [hsends]; exact inv.vq_sorted
  · rw [hqueue, hsends]
    intro c hc e he hvq
    rcases List.mem_append.mp hc with h1 | h1
    · exact inv.queue_after_sent c h1 e he hvq
    · rw [List.mem_singleton] at h1; subst h1
      exact inv.sends_lt e he

theorem inv_reject {s : ChanState} (inv : CoreInv s) {t : Nat}
    (hnow : s.now ≤ t) {s₁ : ChanState}
    (hlast : s₁.lastCommandTime = s.lastCommandTime)
    (hqueue : s₁.commandQueue = s.commandQueue)
    (hnow1 : s₁.now = t)
    (hnext : s₁.nextId = s.nextId + 1)
    (hreq : s₁.nextReq = s.nextReq)
    (hsettled : s₁.settled = (s.nextId, false) :: s.settled)
    (hsends : s₁.sends = s.sends) : CoreInv s₁ := by
  refine ⟨?_, ?_, ?_, ?_, ?_, ?_, ?_, ?_, ?_, ?_, ?_, ?_, ?_, ?_, ?_⟩
  · rw [hlast, hnow1]; exact Nat.le_trans inv.last_le_now hnow
  · rw [hsends, hlast]; exact inv.last_send_time
  · rw [hqueue, hnext]
    exact fun c hc => Nat.lt_succ_of_lt (inv.queue_lt c hc)
  · rw [hsends, hnext]
    exact fun e he => Nat.lt_succ_of_lt (inv.sends_lt e he)
  · rw [hsettled, hnext]
    intro p hp
    rcases List.mem_cons.mp hp with h1 | h1
    · subst h1; exact Nat.lt_succ_self _
    · exact Nat.lt_succ_of_lt (inv.settled_lt p h1)
  · rw [hqueue, hsettled]
    intro c hc
    rw [settleLookup_cons_ne _ _ _ (Nat.ne_of_lt (inv.queue_lt c hc)).symm]
    exact inv.queue_unsettled c hc
  · rw [hqueue, hsends]; exact inv.queue_unsent
  · rw [hqueue]; exact inv.queue_sorted
  · rw [hsends]; exact inv.sends_nodup
  · rw [hqueue]; exact inv.queue_slash
  · rw [hsends]; exact inv.env_ok
  · rw [hsends, hreq]; exact inv.req_lt
  · rw [hsends]; exact inv.req_nodup
  · rw [hsends]; exact inv.vq_sorted
  · rw [hqueue, hsends]; exact inv.queue_after_sent

theorem inv_exec_fresh {s : ChanState} (inv : CoreInv s) {t : Nat}
    {text : String} {priority : Bool} (hnow : s.now ≤ t) {s₁ : ChanState}
    (hlast : s₁.lastCommandTime = t)
    (hqueue : s₁.commandQueue = s.commandQueue)
    (hnow1 : s₁.now = t)
    (hnext : s₁.nextId = s.nextId + 1)
    (hreq : s₁.nextReq = s.nextReq + 1)
    (hsettled : s₁.settled = (s.nextId, true) :: s.settled)
    (hsends : s₁.sends = s.sends ++
      [execEvent s t { cmdId := s.nextId, text := enforceSlash text,
                       orig := text } false priority]) :
    CoreInv s₁ := by
  refine ⟨?_, ?_, ?_, ?_, ?_, ?_, ?_, ?_, ?_, ?_, ?_, ?_, ?_, ?_, ?_⟩
  · rw [hlast, hnow1]
  · rw [hsends, hlast]
    intro e he
    rw [List.getLast?_concat] at he
    cases he
    rfl
  · rw [hqueue, hnext]
    exact fun c hc => Nat.lt_succ_of_lt (inv.queue_lt c hc)
  · rw [hsends, hnext]
    intro e he
    rcases List.mem_append.mp he with h1 | h1
    · exact Nat.lt_succ_of_lt (inv.sends_lt e h1)
    · rw [List.mem_singleton] at h1; subst h1; exact Nat.lt_succ_self _
  · rw [hsettled, hnext]
    intro p hp
    rcases List.mem_cons.mp hp with h1 | h1
    · subst h1; exact Nat.lt_succ_self _
    · exact Nat.lt_succ_of_lt (inv.settled_lt p h1)
  · rw [hqueue, hsettled]
    intro c hc
    rw [settleLookup_cons_ne _ _ _ (Nat.ne_of_lt (inv.queue_lt c hc)).symm]
    exact inv.queue_unsettled c hc
  · rw [hqueue, hsends]
    intro c hc e he
    rcases List.mem_append.mp he with h1 | h1
    · exact inv.queue_unsent c hc e h1
    · rw [List.mem_singleton] at h1; subst h1
      exact (Nat.ne_of_lt (inv.queue_lt c hc)).symm
  · rw [hqueue]; exact inv.queue_sorted
  · rw [hsends, List.pairwise_append]
    refine ⟨inv.sends_nodup, by simp, fun a ha b hb => ?_⟩
    rw [List.mem_singleton] at hb; subst hb
    exact Nat.ne_of_lt (inv.sends_lt a ha)
  · rw [hqueue]; exact inv.queue_slash
  · rw [hsends]
    intro e he
    rcases List.mem_append.mp he with h1 | h1
    · exact inv.env_ok e h1
    · rw [List.mem_singleton] at h1; subst h1
      exact ⟨rfl, rfl, rfl, rfl, rfl, rfl⟩
  · rw [hsends, hreq]
    intro e he
    rcases List.mem_append.mp he with h1 | h1
    · exact Nat.lt_succ_of_lt (inv.req_lt e h1)
    · rw [List.mem_singleton] at h1; subst h1; exact Nat.lt_succ_self _
  · rw [hsends, List.pairwise_append]
    refine ⟨inv.req_nodup, by simp, fun a ha b hb => ?_⟩
    rw [List.mem_singleton] at hb; subst hb
    exact Nat.ne_of_lt (inv.req_lt a ha)
  · rw [hsends, List.pairwise_append]
    refine ⟨inv.vq_sorted, by simp, fun a ha b hb => ?_⟩
    rw [List.mem_singleton] at hb; subst hb
    exact fun _ hbv => absurd hbv (fun hx => Bool.noConfusion hx)
  · rw [hqueue, hsends]
    intro c hc e he hvq
    rcases List.mem_append.mp he with h1 | h1
    · exact inv.queue_after_sent c hc e h1 hvq
    · rw [List.mem_singleton] at h1; subst h1
      exact absurd hvq (fun hx => Bool.noConfusion hx)

theorem inv_wake_exec {s : ChanState} (inv : CoreInv s) {t : Nat} {c : QCmd}
    {rest : List QCmd} (hq : s.commandQueue = c :: rest) (hnow : s.now ≤ t)
    {s₁ : ChanState}
    (hlast : s₁.lastCommandTime = t)
    (hqueue : s₁.commandQueue = rest)
    (hnow1 : s₁.now = t)
    (hnext : s₁.nextId = s.nextId)
    (hreq : s₁.nextReq = s.nextReq + 1)
    (hsettled : s₁.settled = (c.cmdId, true) :: s.settled)
    (hsends : s₁.sends = s.sends ++ [execEvent s t c true false]) :
    CoreInv s₁ := by
  have hc : c ∈ s.commandQueue := by rw [hq]; exact List.mem_cons_self c rest
  have hmem : ∀ c2 ∈ rest, c2 ∈ s.commandQueue := fun c2 h2 => by
    rw [hq]; exact List.mem_cons_of_mem c h2
  have hsorted := inv.queue_sorted
  rw [hq, List.pairwise_cons] at hsorted
  obtain ⟨hlt, hrest_pw⟩ := hsorted
  refine ⟨?_, ?_, ?_, ?_, ?_, ?_, ?_, ?_, ?_, ?_, ?_, ?_, ?_, ?_, ?_⟩
  · rw [hlast, hnow1]
  · rw [hsends, hlast]
    intro e he
    rw [List.getLast?_concat] at he
    cases he
    rfl
  · rw [hqueue, hnext]
    exact fun c2 h2 => inv.queue_lt c2 (hmem c2 h2)
  · rw [hsends, hnext]
    intro e he
    rcases List.mem_append.mp he with h1 | h1
    · exact inv.sends_lt e h1
    · rw [List.mem_singleton] at h1; subst h1
      exact inv.queue_lt c hc
  · rw [hsettled, hnext]
    intro p hp
    rcases List.mem_cons.mp hp with h1 | h1
    · subst h1; exact inv.queue_lt c hc
    · exact inv.settled_lt p h1
  · rw [hqueue, hsettled]
    intro c2 h2
    rw [settleLookup_cons_ne _ _ _ (Nat.ne_of_lt (hlt c2 h2))]
    exact inv.queue_unsettled c2 (hmem c2 h2)
  · rw [hqueue, hsends]
    intro c2 h2 e he
    rcases List.mem_append.mp he with h1 | h1
    · exact inv.queue_unsent c2 (hmem c2 h2) e h1
    · rw [List.mem_singleton] at h1; subst h1
      exact Nat.ne_of_lt (hlt c2 h2)
  · rw [hqueue]; exact hrest_pw
  · rw [hsends, List.pairwise_append]
    refine ⟨inv.sends_nodup, by simp, fun a ha b hb => ?_⟩
    rw [List.mem_singleton] at hb; subst hb
    exact inv.queue_unsent c hc a ha
  · rw [hqueue]
    exact fun c2 h2 => inv.queue_slash c2 (hmem c2 h2)
  · rw [hsends]
    intro e he
    rcases List.mem_append.mp he with h1 | h1
    · exact inv.env_ok e h1
    · rw [List.mem_singleton] at h1; subst h1
      exact ⟨rfl, rfl, rfl, rfl, rfl, inv.queue_slash c hc⟩
  · rw [hsends, hreq]
    intro e he
    rcases List.mem_append.mp he with h1 | h1
    · exact Nat.lt_succ_of_lt (inv.req_lt e h1)
    · rw [List.mem_singleton] at h1; subst h1
      exact Nat.lt_succ_self _
  · rw [hsends, List.pairwise_append]
    refine ⟨inv.req_nodup, by simp, fun a ha b hb => ?_⟩
    rw [List.mem_singleton] at hb; subst hb
    exact Nat.ne_of_lt (inv.req_lt a ha)
  · rw [hsends, List.pairwise_append]
    refine ⟨inv.vq_sorted, by simp, fun a ha b hb => ?_⟩
    rw [List.mem_singleton] at hb; subst hb
    intro hav _
    exact inv.queue_after_sent c hc a ha hav
  · rw [hqueue, hsends]
    intro c2 h2 e he hvq
    rcases List.mem_append.mp he with h1 | h1
    · exact inv.queue_after_sent c2 (hmem c2 h2) e h1 hvq
    · rw [List.mem_singleton] at h1; subst h1
      exact hlt c2 h2

theorem inv_step {s s₁ : ChanState} {a : Act} (inv : CoreInv s)
    (h : step s a = some s₁) : CoreInv s₁ := by
  cases step_view h with
  | reject t priority hnow =>
    exact inv_reject inv hnow rfl rfl rfl rfl rfl rfl rfl
  | exec t text priority hnow htext hcond =>
    exact inv_exec_fresh inv hnow rfl rfl rfl rfl rfl rfl rfl
  | enqueueBusy t text hnow htext hdel hproc =>
    exact inv_enqueue inv hnow rfl rfl rfl rfl rfl rfl rfl
  | enqueueStart t text hnow htext hdel hproc =>
    exact inv_enqueue inv hnow rfl rfl rfl rfl rfl rfl rfl
  | wakeCrash t w hw hnow hge hq =>
    refine ⟨Nat.le_trans inv.last_le_now hnow, inv.last_send_time, ?_,
      inv.sends_lt, inv.settled_lt, ?_, ?_, List.Pairwise.nil,
      inv.sends_nodup, ?_, inv.env_ok, inv.req_lt, inv.req_nodup,
      inv.vq_sorted, ?_⟩
    · exact fun c hc => absurd hc (List.not_mem_nil c)
    · exact fun c hc => absurd hc (List.not_mem_nil c)
    · exact fun c hc => absurd hc (List.not_mem_nil c)
    · exact fun c hc => absurd hc (List.not_mem_nil c)
    · exact fun c hc => absurd hc (List.not_mem_nil c)
  | wakeExecLast t w c hw hnow hge hq =>
    exact inv_wake_exec inv hq hnow rfl rfl rfl rfl rfl rfl rfl
  | wakeExecMore t w c rest hw hnow hge hq hrest =>
    exact inv_wake_exec inv hq hnow rfl rfl rfl rfl rfl rfl rfl
  | clearQ t hnow =>
    refine ⟨Nat.le_trans inv.last_le_now hnow, inv.last_send_time, ?_,
      inv.sends_lt, ?_, ?_, ?_, List.Pairwise.nil, inv.sends_nodup, ?_,
      inv.env_ok, inv.req_lt, inv.req_nodup, inv.vq_sorted, ?_⟩
    · exact fun c hc => absurd hc (List.not_mem_nil c)
    · intro p hp
      rcases List.mem_append.mp hp with h1 | h1
      · rcases List.mem_map.mp h1 with ⟨c, hc, h2⟩
        subst h2
        exact inv.queue_lt c hc
      · exact inv.settled_lt p h1
    · exact fun c hc => absurd hc (List.not_mem_nil c)
    · exact fun c hc => absurd hc (List.not_mem_nil c)
    · exact fun c hc => absurd hc (List.not_mem_nil c)
    · exact fun c hc => absurd hc (List.not_mem_nil c)

theorem inv_run (acts : List Act) : ∀ {s s₁ : ChanState}, CoreInv s →
    run s acts = some s₁ → CoreInv s₁ := by
  induction acts with
  | nil =>
    intro s s₁ inv h
    cases h
    exact inv
  | cons a rest ih =>
    intro s s₁ inv h
    rw [run_cons] at h
    cases hstep : step s a with
    | none => rw [hstep] at h; cases h
    | some s2 =>
      rw [hstep] at h
      exact ih (inv_step inv hstep) h

theorem step_nextId_mono {s s₁ : ChanState} {a : Act}
    (h : step s a = some s₁) : s.nextId ≤ s₁.nextId := by
  cases step_view h with
  | reject t priority hnow => exact Nat.le_succ _
  | exec t text priority hnow htext hcond => exact Nat.le_succ _
  | enqueueBusy t text hnow htext hdel hproc => exact Nat.le_succ _
  | enqueueStart t text hnow htext hdel hproc => exact Nat.le_succ _
  | wakeCrash t w hw hnow hge hq => exact Nat.le_refl _
  | wakeExecLast t w c hw hnow hge hq => exact Nat.le_refl _
  | wakeExecMore t w c rest hw hnow hge hq hrest => exact Nat.le_refl _
  | clearQ t hnow => exact Nat.le_refl _

/-- The pacing invariant: all recorded inter-send gaps are at least
`commandDelay`, and a sleeping drain's recorded wake-up point equals
`lastCommandTime + commandDelay`.  The second part is exactly what an
immediate-path send breaks when it lands during the sleep. -/
structure GapInv (s : ChanState) : Prop where
  gaps : gapsOKb s.sends = true
  wait_eq : ∀ w, s.waitingUntil = some w →
    w = s.lastCommandTime + commandDelay

theorem gapInv_init : GapInv chanInit :=
  ⟨rfl, fun _ h => Option.noConfusion h⟩

theorem isMidWaitImm_none {s : ChanState} {t : Nat} {text : String}
    (hni : isMidWaitImm s (Act.submit t text false) = false)
    (htext : text ≠ "") (hdel : commandDelay ≤ t - s.lastCommandTime)
    (hnow : s.now ≤ t) : s.waitingUntil = none := by
  cases hwv : s.waitingUntil with
  | none => rfl
  | some w =>
    exfalso
    simp only [isMidWaitImm, hwv] at hni
    simp [htext, hdel, hnow] at hni

theorem gap_step {s s₁ : ChanState} {a : Act} (inv : CoreInv s)
    (g : GapInv s) (h : step s a = some s₁)
    (hnp : ∀ t text p, a = Act.submit t text p → p = false)
    (hni : isMidWaitImm s a = false) : GapInv s₁ := by
  cases step_view h with
  | reject t priority hnow => exact ⟨g.gaps, g.wait_eq⟩
  | exec t text priority hnow htext hcond =>
    have hp : priority = false := hnp t text priority rfl
    subst hp
    have hdel : commandDelay ≤ t - s.lastCommandTime := by
      rcases hcond with h1 | h1
      · cases h1
      · exact h1
    have hwn : s.waitingUntil = none := isMidWaitImm_none hni htext hdel hnow
    constructor
    · show gapsOKb (s.sends ++
        [execEvent s t { cmdId := s.nextId, text := enforceSlash text,
                         orig := text } false false]) = true
      rw [gapsOKb_concat, g.gaps, Bool.true_and]
      cases hl : s.sends.getLast? with
      | none => rfl
      | some aev =>
        simp only [hl]
        rw [inv.last_send_time aev hl]
        exact decide_eq_true hdel
    · intro w hw
      have h2 : s.waitingUntil = some w := hw
      rw [hwn] at h2
      exact Option.noConfusion h2
  | enqueueBusy t text hnow htext hdel hproc =>
    exact ⟨g.gaps, fun w hw => g.wait_eq w hw⟩
  | enqueueStart t text hnow htext hdel hproc =>
    refine ⟨g.gaps, ?_⟩
    intro w hw
    have h2 : some (s.lastCommandTime + commandDelay) = some w := hw
    cases h2
    rfl
  | wakeCrash t w hw hnow hge hq =>
    exact ⟨g.gaps, fun w2 hw2 => Option.noConfusion hw2⟩
  | wakeExecLast t w c hw hnow hge hq =>
    have hweq := g.wait_eq w hw
    refine ⟨?_, fun w2 hw2 => Option.noConfusion hw2⟩
    show gapsOKb (s.sends ++ [execEvent s t c true false]) = true
    rw [gapsOKb_concat, g.gaps, Bool.true_and]
    cases hl : s.sends.getLast? with
    | none => rfl
    | some aev =>
      simp only [hl]
      rw [inv.last_send_time aev hl]
      have harith : commandDelay ≤ t - s.lastCommandTime := by omega
      exact decide_eq_true harith
  | wakeExecMore t w c rest hw hnow hge hq hrest =>
    have hweq := g.wait_eq w hw
    constructor
    · show gapsOKb (s.sends ++ [execEvent s t c true false]) = true
      rw [gapsOKb_concat, g.gaps, Bool.true_and]
      cases hl : s.sends.getLast? with
      | none => rfl
      | some aev =>
        simp only [hl]
        rw [inv.last_send_time aev hl]
        have harith : commandDelay ≤ t - s.lastCommandTime := by omega
        exact decide_eq_true harith
    · intro w2 hw2
      have h2 : some (t + commandDelay) = some w2 := hw2
      cases h2
      rfl
  | clearQ t hnow => exact ⟨g.gaps, fun w hw => g.wait_eq w hw⟩

theorem allNonPrio_head {a : Act} {rest : List Act}
    (h : allNonPrio (a :: rest) = true) :
    (∀ t text p, a = Act.submit t text p → p = false) ∧
      allNonPrio rest = true := by
  cases a with
  | submit t text p =>
    cases p with
    | false =>
      refine ⟨fun t2 tx2 p2 he => ?_, ?_⟩
      · cases he; rfl
      · simpa [allNonPrio] using h
    | true => simp [allNonPrio] at h
  | wake t => exact ⟨fun _ _ _ he => Act.noConfusion he, h⟩
  | clear t => exact ⟨fun _ _ _ he => Act.noConfusion he, h⟩

theorem noMidWaitImm_head {s s₁ : ChanState} {a : Act} {rest : List Act}
    (h : noMidWaitImm s (a :: rest) = true) (hstep : step s a = some s₁) :
    isMidWaitImm s a = false ∧ noMidWaitImm s₁ rest = true := by
  simp only [noMidWaitImm, Bool.and_eq_true] at h
  obtain ⟨h1, h2⟩ := h
  simp only [hstep] at h2
  refine ⟨?_, h2⟩
  cases hmi : isMidWaitImm s a
  · rfl
  · rw [hmi] at h1; cases h1

theorem gap_run (acts : List Act) : ∀ {s s₁ : ChanState}, CoreInv s →
    GapInv s → allNonPrio acts = true → noMidWaitImm s acts = true →
    run s acts = some s₁ → GapInv s₁ := by
  induction acts with
  | nil =>
    intro s s₁ _ g _ _ hrun
    cases hrun
    exact g
  | cons a rest ih =>
    intro s s₁ inv g hnp hmw hrun
    rw [run_cons] at hrun
    cases hstep : step s a with
    | none => rw [hstep] at hrun; cases hrun
    | some s2 =>
      rw [hstep] at hrun
      obtain ⟨hnp1, hnp2⟩ := allNonPrio_head hnp
      obtain ⟨hmw1, hmw2⟩ := noMidWaitImm_head hmw hstep
      exact ih (inv_step inv hstep) (gap_step inv g hstep hnp1 hmw1)
        hnp2 hmw2 hrun

/-- C2 amended: for sequences of non-priority submissions in which no
immediate-path submission lands while the drain is mid-wait, any two
successive wire sends are separated by at least the configured minimum
interval; the counterexample shows the unrestricted claim — covering the
interleaving of an immediate-path submission with a drain mid-wait — is
false, because the drain does not re-check the elapsed time after its
sleep. -/
theorem send_gaps_ge_delay (acts : List Act) (s₁ : ChanState)
    (hnp : allNonPrio acts = true)
    (hmw : noMidWaitImm chanInit acts = true)
    (hrun : run chanInit acts = some s₁) :
    gapsOKb s₁.sends = true :=
  (gap_run acts coreInv_init gapInv_init hnp hmw hrun).gaps

/-- A quiet trace for the C2 witness: one queued send, one later
immediate-path send with the drain idle. -/
def c2WTrace : List Act :=
  [Act.submit 0 "x" false, Act.wake 50, Act.submit 120 "y" false]

/-- Witness for the amended C2 at a concrete trace. -/
theorem send_gaps_ge_delay_witness :
    gapsOKb ((run chanInit c2WTrace).getD chanInit).sends = true :=
  send_gaps_ge_delay c2WTrace ((run chanInit c2WTrace).getD chanInit)
    (by decide) (by decide) (by decide)

theorem stuck_step {s s₁ : ChanState} {a : Act} (inv : CoreInv s)
    (hproc : s.isProcessing = true) (hwait : s.waitingUntil = none)
    (hcr : s.crashed = true) (hnc : ∀ t, a ≠ Act.clear t)
    (h : step s a = some s₁) :
    s₁.isProcessing = true ∧ s₁.waitingUntil = none ∧ s₁.crashed = true ∧
      (∀ c ∈ s.commandQueue, c ∈ s₁.commandQueue) ∧
      ∀ n, n < s.nextId →
        settleLookup s₁.settled n = settleLookup s.settled n := by
  cases step_view h with
  | reject t priority hnow =>
    refine ⟨hproc, hwait, hcr, fun c hc => hc, fun n hn => ?_⟩
    exact settleLookup_cons_ne _ _ _ (Nat.ne_of_lt hn).symm
  | exec t text priority hnow htext hcond =>
    refine ⟨hproc, hwait, hcr, fun c hc => hc, fun n hn => ?_⟩
    exact settleLookup_cons_ne _ _ _ (Nat.ne_of_lt hn).symm
  | enqueueBusy t text hnow htext hdel hproc2 =>
    exact ⟨hproc, hwait, hcr, fun c hc => List.mem_append_left _ hc,
      fun n hn => rfl⟩
  | enqueueStart t text hnow htext hdel hproc2 =>
    rw [hproc2] at hproc
    cases hproc
  | wakeCrash t w hw hnow hge hq =>
    rw [hwait] at hw
    cases hw
  | wakeExecLast t w c hw hnow hge hq =>
    rw [hwait] at hw
    cases hw
  | wakeExecMore t w c rest hw hnow hge hq hrest =>
    rw [hwait] at hw
    cases hw
  | clearQ t hnow => exact absurd rfl (hnc t)

theorem stuck_run (acts : List Act) : ∀ {s s₁ : ChanState}, CoreInv s →
    s.isProcessing = true → s.waitingUntil = none → s.crashed = true →
    noClearb acts = true → run s acts = some s₁ →
    s₁.isProcessing = true ∧ s₁.waitingUntil = none ∧ s₁.crashed = true ∧
      (∀ c ∈ s.commandQueue, c ∈ s₁.commandQueue) ∧
      ∀ n, n < s.nextId →
        settleLookup s₁.settled n = settleLookup s.settled n := by
  induction acts with
  | nil =>
    intro s s₁ _ h1 h2 h3 _ hrun
    cases hrun
    exact ⟨h1, h2, h3, fun c hc => hc, fun n hn => rfl⟩
  | cons a rest ih =>
    intro s s₁ inv h1 h2 h3 hnc hrun
    rw [run_cons] at hrun
    cases hstep : step s a with
    | none => rw [hstep] at hrun; cases hrun
    | some s2 =>
      rw [hstep] at hrun
      have hnca : (∀ t, a ≠ Act.clear t) ∧ noClearb rest = true := by
        cases a with
        | clear t => simp [noClearb] at hnc
        | submit t text p => exact ⟨fun _ he => Act.noConfusion he, hnc⟩
        | wake t => exact ⟨fun _ he => Act.noConfusion he, hnc⟩
      obtain ⟨hs1, hs2, hs3, hsq, hsl⟩ :=
        stuck_step inv h1 h2 h3 hnca.1 hstep
      obtain ⟨r1, r2, r3, rq, rl⟩ :=
        ih (inv_step inv hstep) hs1 hs2 hs3 hnca.2 hrun
      refine ⟨r1, r2, r3, fun c hc => rq c (hsq c hc), fun n hn => ?_⟩
      rw [rl n (Nat.lt_of_lt_of_le hn (step_nextId_mono hstep)), hsl n hn]

/-- The failing trace for C1: command `a` is queued and drained; `b` is
queued at 60 (drain sleeps until 100); `clearQueue` at 70 rejects `b` and
empties the queue; the drain wakes at 100, `shift()` returns `undefined`
and `executeCommand` throws, leaving `isProcessing` stuck at `true`;
command `c` still passes the elapsed-time check (immediate path), but `d`,
submitted at 120, is queued behind the dead drain. -/
def c1Trace : List Act :=
  [Act.submit 0 "a" false, Act.wake 50, Act.submit 60 "b" false,
   Act.clear 70, Act.wake 100, Act.submit 110 "c" false,
   Act.submit 120 "d" false]

/-- The channel state after `c1Trace`. -/
def c1Mid : ChanState := (run chanInit c1Trace).getD chanInit

theorem c1Mid_run : run chanInit c1Trace = some c1Mid := by decide

/-- C1 fails on the code: after `clearQueue` empties the queue during a
drain sleep, the drain continuation crashes (destructuring the `undefined`
returned by `shift()`), `isProcessing` is stuck `true`, and the later
submission `d` (promise id 3) sits in the queue for ever: along every
clear-free continuation of the trace its result handle stays pending — it
settles zero times, contradicting settles-exactly-once. -/
theorem cleared_drain_wedges_queue (acts : List Act) (s₁ : ChanState)
    (hnc : noClearb acts = true)
    (hrun : run chanInit (c1Trace ++ acts) = some s₁) :
    s₁.crashed = true ∧ s₁.isProcessing = true ∧ s₁.waitingUntil = none ∧
      (∃ c ∈ s₁.commandQueue, c.cmdId = 3) ∧
      settleLookup s₁.settled 3 = none := by
  rw [run_append, c1Mid_run] at hrun
  have hrun2 : run c1Mid acts = some s₁ := hrun
  have invMid : CoreInv c1Mid := inv_run c1Trace coreInv_init c1Mid_run
  obtain ⟨r1, r2, r3, rq, rl⟩ :=
    stuck_run acts invMid (by decide) (by decide) (by decide) hnc hrun2
  have hd : (⟨3, "/d", "d"⟩ : QCmd) ∈ c1Mid.commandQueue := by decide
  refine ⟨r3, r1, r2, ⟨⟨3, "/d", "d"⟩, rq _ hd, rfl⟩, ?_⟩
  rw [rl 3 (by decide)]
  decide

/-- Witness for the C1 failing trace itself (empty continuation). -/
theorem cleared_drain_wedges_queue_witness :
    c1Mid.crashed = true ∧ c1Mid.isProcessing = true ∧
      c1Mid.waitingUntil = none ∧ (∃ c ∈ c1Mid.commandQueue, c.cmdId = 3) ∧
      settleLookup c1Mid.settled 3 = none :=
  cleared_drain_wedges_queue [] c1Mid (by decide)
    (by rw [List.append_nil]; exact c1Mid_run)

/-- C3 amended: commands that take the queued path execute in FIFO
(submission) order relative to each other, and a priority submission made
while commands are queued produces its wire send before any of those queued
commands produces its send: the priority send is already in the send history
when the submission returns, no queued command has a send yet, and the send
history only grows by appending.  (The counterexample shows the claimed
FIFO order among all non-priority commands fails when an immediate-path
submission interleaves with the drain.) -/
theorem priority_jumps_queue_and_queued_fifo
    (acts1 : List Act) (t : Nat) (text : String) (acts2 : List Act)
    (s₁ s₂ s₃ : ChanState)
    (h1 : run chanInit acts1 = some s₁)
    (h2 : step s₁ (Act.submit t text true) = some s₂)
    (h3 : run s₂ acts2 = some s₃)
    (htext : text ≠ "") :
    (s₃.sends.Pairwise fun a b =>
        a.viaQueue = true → b.viaQueue = true → a.cmdId < b.cmdId) ∧
    ∃ post, s₃.sends = s₂.sends ++ post ∧
      (∃ e ∈ s₂.sends, e.cmdId = s₁.nextId ∧ e.prio = true) ∧
      ∀ c ∈ s₁.commandQueue, ∀ e ∈ s₂.sends, e.cmdId ≠ c.cmdId := by
  have inv1 : CoreInv s₁ := inv_run acts1 coreInv_init h1
  have inv2 : CoreInv s₂ := inv_step inv1 h2
  have inv3 : CoreInv s₃ := inv_run acts2 inv2 h3
  refine ⟨inv3.vq_sorted, ?_⟩
  obtain ⟨tail, htail⟩ := run_sends_extend acts2 h3
  refine ⟨tail, htail, ?_, ?_⟩
  · cases step_view h2 with
    | reject _ _ hnow => exact absurd rfl htext
    | exec _ _ _ hnow htext2 hcond =>
      exact ⟨execEvent s₁ t
          { cmdId := s₁.nextId, text := enforceSlash text, orig := text }
          false true,
        List.mem_append_right _ (List.mem_singleton.mpr rfl), rfl, rfl⟩
  · intro c hcq e he
    cases step_view h2 with
    | reject _ _ hnow => exact absurd rfl htext
    | exec _ _ _ hnow htext2 hcond =>
      rcases List.mem_append.mp he with hh | hh
      · exact inv1.queue_unsent c hcq e hh
      · rw [List.mem_singleton] at hh
        subst hh
        exact (Nat.ne_of_lt (inv1.queue_lt c hcq)).symm

/-- Concrete states for the C3 witness: one command queued, then a priority
submission, then the drain wake. -/
def c3WState1 : ChanState :=
  (run chanInit [Act.submit 0 "q" false]).getD chanInit

def c3WState2 : ChanState :=
  (step c3WState1 (Act.submit 10 "p" true)).getD chanInit

def c3WState3 : ChanState := (run c3WState2 [Act.wake 50]).getD chanInit

/-- Witness for the amended C3 at a concrete trace. -/
theorem priority_jumps_queue_witness :
    (c3WState3.sends.Pairwise fun a b =>
        a.viaQueue = true → b.viaQueue = true → a.cmdId < b.cmdId) ∧
    ∃ post, c3WState3.sends = c3WState2.sends ++ post ∧
      (∃ e ∈ c3WState2.sends, e.cmdId = c3WState1.nextId ∧ e.prio = true) ∧
      ∀ c ∈ c3WState1.commandQueue, ∀ e ∈ c3WState2.sends,
        e.cmdId ≠ c.cmdId :=
  priority_jumps_queue_and_queued_fifo [Act.submit 0 "q" false] 10 "p"
    [Act.wake 50] c3WState1 c3WState2 c3WState3 (by decide) (by decide)
    (by decide) (by decide)

/-- C4: `clearQueue` on a queue of still-pending commands settles exactly
those commands as cancellation failures and leaves the queue empty; it
performs no wire send (the send history and last-send timestamp are
untouched) and leaves every other command's settlement — resolved
executions and prior rejections alike — unchanged. -/
theorem clear_settles_queue (acts : List Act) (s : ChanState) (t : Nat)
    (s₁ : ChanState) (hrun : run chanInit acts = some s)
    (hstep : step s (Act.clear t) = some s₁) :
    s₁.commandQueue = [] ∧
    (∀ c ∈ s.commandQueue, settleLookup s.settled c.cmdId = none ∧
      settleLookup s₁.settled c.cmdId = some false) ∧
    s₁.sends = s.sends ∧ s₁.lastCommandTime = s.lastCommandTime ∧
    (∀ n, n ∉ s.commandQueue.map QCmd.cmdId →
      settleLookup s₁.settled n = settleLookup s.settled n) := by
  have inv : CoreInv s := inv_run acts coreInv_init hrun
  cases step_view hstep with
  | clearQ t2 hnow =>
    refine ⟨rfl, ?_, rfl, rfl, ?_⟩
    · intro c hc
      exact ⟨inv.queue_unsettled c hc, settleLookup_clear_mem _ c _ hc⟩
    · intro n hn
      exact settleLookup_clear_not_mem _ n _
        (fun c hc he => hn (he ▸ List.mem_map_of_mem QCmd.cmdId hc))

/-- Concrete states for the C4 witness: two commands pending in the queue,
then a `clearQueue`. -/
def c4WState : ChanState :=
  (run chanInit [Act.submit 0 "w1" false, Act.submit 5 "w2" false]).getD
    chanInit

def c4WCleared : ChanState := (step c4WState (Act.clear 10)).getD chanInit

/-- Witness for C4 at a concrete trace with a queue of size 2. -/
theorem clear_settles_queue_witness :
    c4WCleared.commandQueue = [] ∧
    (∀ c ∈ c4WState.commandQueue, settleLookup c4WState.settled c.cmdId = none ∧
      settleLookup c4WCleared.settled c.cmdId = some false) ∧
    c4WCleared.sends = c4WState.sends ∧
    c4WCleared.lastCommandTime = c4WState.lastCommandTime ∧
    (∀ n, n ∉ c4WState.commandQueue.map QCmd.cmdId →
      settleLookup c4WCleared.settled n = settleLookup c4WState.settled n) :=
  clear_settles_queue [Act.submit 0 "w1" false, Act.submit 5 "w2" false]
    c4WState 10 c4WCleared (by decide) (by decide)

/-- C8: every wire send carries the fixed JSON envelope — header version 1,
messagePurpose and messageType `commandRequest`, body version 1, origin type
`player` — whose commandLine is the submitted text with a leading slash
enforced; request ids (`uuid.v4()` modelled as a fresh id per envelope) are
pairwise distinct across the trace, and each submitted command is sent at
most once. -/
theorem envelope_shape (acts : List Act) (s : ChanState)
    (hrun : run chanInit acts = some s) :
    (∀ e ∈ s.sends,
      e.msg.headerVersion = 1 ∧ e.msg.messagePurpose = "commandRequest" ∧
      e.msg.messageType = "commandRequest" ∧ e.msg.bodyVersion = 1 ∧
      e.msg.originType = "player" ∧
      e.msg.commandLine = enforceSlash e.orig) ∧
    (s.sends.Pairwise fun a b => a.msg.requestId ≠ b.msg.requestId) ∧
    (s.sends.Pairwise fun a b => a.cmdId ≠ b.cmdId) := by
  have inv : CoreInv s := inv_run acts coreInv_init hrun
  exact ⟨inv.env_ok, inv.req_nodup, inv.sends_nodup⟩

/-- A trace with both send paths for the C8 witness: a queued send, a
drained send, and a priority send, with and without a leading slash. -/
def c8WTrace : List Act :=
  [Act.submit 0 "say hi" false, Act.wake 50, Act.submit 60 "/give p x" true]

/-- Witness for C8 at a concrete trace. -/
theorem envelope_shape_witness :
    (∀ e ∈ ((run chanInit c8WTrace).getD chanInit).sends,
      e.msg.headerVersion = 1 ∧ e.msg.messagePurpose = "commandRequest" ∧
      e.msg.messageType = "commandRequest" ∧ e.msg.bodyVersion = 1 ∧
      e.msg.originType = "player" ∧
      e.msg.commandLine = enforceSlash e.orig) ∧
    (((run chanInit c8WTrace).getD chanInit).sends.Pairwise
      fun a b => a.msg.requestId ≠ b.msg.requestId) ∧
    (((run chanInit c8WTrace).getD chanInit).sends.Pairwise
      fun a b => a.cmdId ≠ b.cmdId) :=
  envelope_shape c8WTrace ((run chanInit c8WTrace).getD chanInit) (by decide)

end SubCounter
